import Mathlib

/-!
Verification development for the `demo-stream` repository.

The file shallowly embeds `src/data-types.ts` (the data-type registry and its
utility functions) and, where the repository ships only a specification of a
component (the message envelope codec), a model built from the spec's words.

Strings are embedded as lists of Unicode codepoints (`List Nat`); JavaScript's
`toLowerCase` is modelled on the ASCII range, which covers every suffix and
MIME literal in the registry.
-/

namespace DemoStream

/-- Codepoint-list view of a string literal. -/
def codes (s : String) : List Nat := s.toList.map Char.toNat

/-- ASCII lowercasing of one codepoint, modelling `String.prototype.toLowerCase`
on the characters that occur in the registry's suffixes. -/
def lowerCode (n : Nat) : Nat := if 65 ≤ n ∧ n ≤ 90 then n + 32 else n

/-- Lowercased copy of a codepoint string, modelling `filename.toLowerCase()`. -/
def lower (s : List Nat) : List Nat := s.map lowerCode

/-- The `DataTypeEnum` of `src/data-types.ts` (the source's `AUDIO` member is
spelled `Audio` here). -/
inductive DataTypeEnum where
  | TIME_SERIES
  | PARAMETERS
  | IMAGES
  | VIDEO
  | Audio
  | LOG
  | MARKDOWN
  | FILE
  | CSV
  | SAFETENSORS
deriving DecidableEq, Repr, Fintype

/-- The `storageBackend` union type `'mongodb' | 's3' | 'both'`. -/
inductive StorageBackend where
  | mongodb
  | s3
  | both
deriving DecidableEq, Repr

/-- The `DataTypeDefinition` interface of `src/data-types.ts`. -/
structure DataTypeDefinition where
  type : DataTypeEnum
  mimeTypes : List (List Nat)
  fileSuffixes : List (List Nat)
  description : List Nat
  storageBackend : StorageBackend
  compressionSupported : Bool
  streamingSupported : Bool
  maxSizeMB : Option Nat
deriving DecidableEq, Repr

open DataTypeEnum in
/-- The static table `DATA_TYPE_DEFINITIONS`, one definition per enum member,
transcribed field by field from `src/data-types.ts`. -/
def DATA_TYPE_DEFINITIONS : DataTypeEnum → DataTypeDefinition
  | TIME_SERIES =>
    { type := TIME_SERIES
      mimeTypes := [codes "application/json", codes "application/x-msgpack",
        codes "application/cbor"]
      fileSuffixes := [codes ".json", codes ".msgpack", codes ".cbor", codes ".timeseries"]
      description := codes "Time-indexed numerical data (telemetry, sensors, metrics)"
      storageBackend := .mongodb
      compressionSupported := true
      streamingSupported := true
      maxSizeMB := some 100 }
  | PARAMETERS =>
    { type := PARAMETERS
      mimeTypes := [codes "application/json", codes "application/yaml",
        codes "application/toml"]
      fileSuffixes := [codes ".json", codes ".yaml", codes ".yml", codes ".toml",
        codes ".params"]
      description := codes "Configuration parameters and hyperparameters"
      storageBackend := .mongodb
      compressionSupported := false
      streamingSupported := false
      maxSizeMB := some 10 }
  | IMAGES =>
    { type := IMAGES
      mimeTypes := [codes "image/jpeg", codes "image/png", codes "image/webp",
        codes "image/tiff", codes "image/bmp", codes "image/gif",
        codes "image/svg+xml", codes "image/x-raw"]
      fileSuffixes := [codes ".jpg", codes ".jpeg", codes ".png", codes ".webp",
        codes ".tiff", codes ".tif", codes ".bmp", codes ".gif", codes ".svg",
        codes ".raw", codes ".nef", codes ".cr2", codes ".arw"]
      description := codes "Static images including RGB, depth, thermal, and raw sensor data"
      storageBackend := .s3
      compressionSupported := true
      streamingSupported := false
      maxSizeMB := some 50 }
  | VIDEO =>
    { type := VIDEO
      mimeTypes := [codes "video/mp4", codes "video/webm", codes "video/x-msvideo",
        codes "video/quicktime", codes "video/x-matroska", codes "video/H264",
        codes "video/H265"]
      fileSuffixes := [codes ".mp4", codes ".webm", codes ".avi", codes ".mov",
        codes ".mkv", codes ".h264", codes ".h265", codes ".hevc", codes ".m4v",
        codes ".wmv"]
      description := codes "Video streams from cameras and recorded sessions"
      storageBackend := .s3
      compressionSupported := true
      streamingSupported := true
      maxSizeMB := some 5000 }
  | Audio =>
    { type := Audio
      mimeTypes := [codes "audio/mpeg", codes "audio/wav", codes "audio/ogg",
        codes "audio/webm", codes "audio/aac", codes "audio/flac", codes "audio/opus"]
      fileSuffixes := [codes ".mp3", codes ".wav", codes ".ogg", codes ".webm",
        codes ".aac", codes ".flac", codes ".opus", codes ".m4a", codes ".wma"]
      description := codes "Audio recordings and streams from microphones"
      storageBackend := .s3
      compressionSupported := true
      streamingSupported := true
      maxSizeMB := some 500 }
  | LOG =>
    { type := LOG
      mimeTypes := [codes "text/plain", codes "application/x-ndjson", codes "text/x-log"]
      fileSuffixes := [codes ".log", codes ".txt", codes ".ndjson", codes ".jsonl",
        codes ".stdout", codes ".stderr"]
      description := codes "Text logs from system components and applications"
      storageBackend := .mongodb
      compressionSupported := true
      streamingSupported := true
      maxSizeMB := some 100 }
  | MARKDOWN =>
    { type := MARKDOWN
      mimeTypes := [codes "text/markdown", codes "text/x-markdown", codes "text/plain"]
      fileSuffixes := [codes ".md", codes ".markdown", codes ".mdown", codes ".mkd"]
      description := codes "Documentation and formatted text notes"
      storageBackend := .mongodb
      compressionSupported := true
      streamingSupported := false
      maxSizeMB := some 10 }
  | FILE =>
    { type := FILE
      mimeTypes := [codes "application/octet-stream", codes "*/*"]
      fileSuffixes := [codes "*"]
      description := codes "Generic file storage for any binary or text data"
      storageBackend := .s3
      compressionSupported := true
      streamingSupported := false
      maxSizeMB := some 1000 }
  | CSV =>
    { type := CSV
      mimeTypes := [codes "text/csv", codes "application/csv",
        codes "text/tab-separated-values"]
      fileSuffixes := [codes ".csv", codes ".tsv", codes ".tab"]
      description := codes "Tabular data in comma or tab-separated format"
      storageBackend := .both
      compressionSupported := true
      streamingSupported := false
      maxSizeMB := some 500 }
  | SAFETENSORS =>
    { type := SAFETENSORS
      mimeTypes := [codes "application/x-safetensors", codes "application/octet-stream"]
      fileSuffixes := [codes ".safetensors", codes ".st"]
      description := codes "Safe serialization format for ML model tensors"
      storageBackend := .s3
      compressionSupported := false
      streamingSupported := false
      maxSizeMB := some 10000 }

/-- Iteration order of `Object.entries(DATA_TYPE_DEFINITIONS)`: string-keyed
properties enumerate in insertion order, i.e. the order the object literal
lists them. -/
def entryOrder : List DataTypeEnum :=
  [.TIME_SERIES, .PARAMETERS, .IMAGES, .VIDEO, .Audio, .LOG, .MARKDOWN, .FILE,
   .CSV, .SAFETENSORS]

/-- The suffix test performed inside `getDataTypeForFile`'s loop body:
`definition.fileSuffixes.some(suffix => filename.toLowerCase().endsWith(suffix))`. -/
def suffixSearchHit (filename : List Nat) (d : DataTypeEnum) : Bool :=
  (DATA_TYPE_DEFINITIONS d).fileSuffixes.any fun sfx =>
    List.isSuffixOf sfx (lower filename)

/-- The `for`-loop of `getDataTypeForFile`: walk the entries in order, skip the
generic `FILE` entry, return the first entry whose suffix set matches; fall
through to `FILE`. -/
def searchType (filename : List Nat) : List DataTypeEnum → DataTypeEnum
  | [] => DataTypeEnum.FILE
  | d :: rest =>
    if d = DataTypeEnum.FILE then searchType filename rest
    else if suffixSearchHit filename d then d
    else searchType filename rest

/-- `getDataTypeForFile` of `src/data-types.ts`. -/
def getDataTypeForFile (filename : List Nat) : DataTypeEnum :=
  searchType filename entryOrder

/-- JavaScript's `mimeTypes[0] || 'application/octet-stream'`: the default is
taken when the list is empty (`undefined`) or its head is the empty string
(both falsy). -/
def headOrOctetStream (mimes : List (List Nat)) : List Nat :=
  match mimes.head? with
  | some m => if m = [] then codes "application/octet-stream" else m
  | none => codes "application/octet-stream"

/-- `getMimeTypeForFile` of `src/data-types.ts`. -/
def getMimeTypeForFile (filename : List Nat) : List Nat :=
  headOrOctetStream (DATA_TYPE_DEFINITIONS (getDataTypeForFile filename)).mimeTypes

/-- `getPrimaryMimeType` of `src/data-types.ts`. -/
def getPrimaryMimeType (dataType : DataTypeEnum) : List Nat :=
  headOrOctetStream (DATA_TYPE_DEFINITIONS dataType).mimeTypes

/-- The fields of the `DataPayload` interface that the utility functions
consult, plus the identifying metadata fields; optional numeric fields are
`Option Nat`. -/
structure DataPayload where
  timestamp : Int
  robotId : List Nat
  sessionId : List Nat
  dataType : DataTypeEnum
  sequenceNumber : Nat
  originalSize : Option Nat
  compressedSize : Option Nat
deriving DecidableEq, Repr

/-- `validatePayloadSize` of `src/data-types.ts`.  `!definition.maxSizeMB` is
truthy when the field is absent or `0`; `payload.originalSize || 0` treats a
missing size as `0`; the division `sizeMB = size / (1024*1024)` is exact in
IEEE doubles for integer sizes (division by a power of two), so it is embedded
as exact rational division. -/
def validatePayloadSize (payload : DataPayload) : Bool :=
  match (DATA_TYPE_DEFINITIONS payload.dataType).maxSizeMB with
  | none => true
  | some m =>
    if m = 0 then true
    else decide ((payload.originalSize.getD 0 : ℚ) / (1024 * 1024) ≤ (m : ℚ))

/-- `matchesSuffix` of `src/data-types.ts`. -/
def matchesSuffix (filename : List Nat) (dataType : DataTypeEnum) : Bool :=
  if codes "*" ∈ (DATA_TYPE_DEFINITIONS dataType).fileSuffixes then true
  else (DATA_TYPE_DEFINITIONS dataType).fileSuffixes.any fun sfx =>
    List.isSuffixOf sfx (lower filename)

/-- The non-generic data types, in `Object.entries` order; the suffix search
of `getDataTypeForFile` consults exactly these. -/
def nonFileTypes : List DataTypeEnum :=
  [.TIME_SERIES, .PARAMETERS, .IMAGES, .VIDEO, .Audio, .LOG, .MARKDOWN, .CSV,
   .SAFETENSORS]

/-- Every file suffix registered on a non-generic data type. -/
def allSpecificSuffixes : List (List Nat) :=
  nonFileTypes.flatMap fun d => (DATA_TYPE_DEFINITIONS d).fileSuffixes

/-- Length of the longest registered suffix of `d` that matches `filename`
(`0` when none matches); used by the spec-modelled classifier's
longest-suffix-wins rule. -/
def bestMatchLen (filename : List Nat) (d : DataTypeEnum) : Nat :=
  ((DATA_TYPE_DEFINITIONS d).fileSuffixes.filter fun sfx =>
    List.isSuffixOf sfx (lower filename)).foldl (fun acc sfx => max acc sfx.length) 0

/-- Modelled from the spec: the suffix stage of §4.1's `classify` — match the
file suffix against every spec's suffix set, generic fallback excluded, the
spec with the longest matching suffix winning. -/
def bestSuffixType (filename : List Nat) : Option DataTypeEnum :=
  (nonFileTypes.filter fun d => suffixSearchHit filename d).foldl
    (fun best d =>
      match best with
      | none => some d
      | some b =>
        if bestMatchLen filename b < bestMatchLen filename d then some d else best)
    none

/-- Modelled from the spec: the MIME stage of §4.1's `classify` — match the
MIME type against every spec's ordered MIME candidates. -/
def mimeLookup (mimeType : List Nat) : Option DataTypeEnum :=
  entryOrder.find? fun d => mimeType ∈ (DATA_TYPE_DEFINITIONS d).mimeTypes

/-- Modelled from the spec: `classify(filename|mimeType|explicitId)` of §4.1,
a contract with no counterpart in `src/` (the code's `getDataTypeForFile`
takes only a filename).  Resolution order: explicit identifier wins if
present; else suffix match (longest wins, fallback excluded); else MIME
match; else the generic fallback spec. -/
def classifySpec (explicitId : Option DataTypeEnum) (filename : List Nat)
    (mimeType : Option (List Nat)) : DataTypeEnum :=
  match explicitId with
  | some d => d
  | none =>
    match bestSuffixType filename with
    | some d => d
    | none =>
      match mimeType.bind mimeLookup with
      | some d => d
      | none => DataTypeEnum.FILE

/-- Modelled from the spec: the `encoding` enum `{raw, base64, binary-pack}`
of the Envelope (§3). -/
inductive Encoding where
  | raw
  | base64
  | binaryPack
deriving DecidableEq, Repr

/-- Modelled from the spec: the optional `compression` enum of the Envelope
(§3); the repository's `DataPayload` documents `gzip | lz4 | zstd`. -/
inductive Compression where
  | gzip
  | lz4
  | zstd
deriving DecidableEq, Repr

/-- Modelled from the spec: the payload of an Envelope is "optional bytes or
structured value", with a discriminator identifying the shape (§4.2). -/
inductive PayloadValue where
  | bytes (bs : List Nat)
  | structured (fields : List (List Nat × List Nat))
deriving DecidableEq, Repr

/-- Modelled from the spec: the decode error taxonomy
`DecodeError{Malformed, ChecksumMismatch}` (§4.2, §7). -/
inductive DecodeError where
  | malformedEnvelope
  | checksumMismatch
deriving DecidableEq, Repr

/-- Modelled from the spec: the Envelope record of §3 — the wire unit of
metadata plus optional payload.  Strings are codepoint lists, bytes are `Nat`
lists, the metadata mapping is an association list. -/
structure Envelope where
  timestampMillis : Int
  producerId : List Nat
  streamId : List Nat
  dataType : DataTypeEnum
  sequenceNumber : Nat
  metadata : List (List Nat × List Nat)
  payload : Option PayloadValue
  encoding : Encoding
  compression : Option Compression
  originalSize : Nat
  compressedSize : Nat
  checksum : Option Nat
deriving DecidableEq, Repr

/-- One `Nat` word on the wire. -/
def encNat (n : Nat) : List Nat := [n]

/-- Reads one word. -/
def decNat : List Nat → Option (Nat × List Nat)
  | n :: rest => some (n, rest)
  | [] => none

/-- Sign-tag plus magnitude. -/
def encInt (i : Int) : List Nat :=
  if 0 ≤ i then [0, i.toNat] else [1, (-i).toNat]

/-- Reads a sign-tagged integer. -/
def decInt : List Nat → Option (Int × List Nat)
  | 0 :: n :: rest => some ((n : Int), rest)
  | 1 :: n :: rest => some (-(n : Int), rest)
  | _ => none

/-- Length-prefixed word sequence (strings and byte payloads). -/
def encStr (s : List Nat) : List Nat := s.length :: s

/-- Reads a length-prefixed sequence, failing when fewer words remain than
declared — the spec's "inconsistent declared vs. actual payload length". -/
def decStr : List Nat → Option (List Nat × List Nat)
  | len :: rest =>
    if len ≤ rest.length then some (rest.take len, rest.drop len) else none
  | [] => none

/-- One metadata key/value pair. -/
def encPair (kv : List Nat × List Nat) : List Nat := encStr kv.1 ++ encStr kv.2

/-- Reads one metadata key/value pair. -/
def decPair (l : List Nat) : Option ((List Nat × List Nat) × List Nat) := do
  let (k, r₁) ← decStr l
  let (v, r₂) ← decStr r₁
  some ((k, v), r₂)

/-- Count-prefixed pair list. -/
def encPairList (kvs : List (List Nat × List Nat)) : List Nat :=
  kvs.length :: (kvs.map encPair).flatten

/-- Reads exactly `n` pairs. -/
def decPairsN : Nat → List Nat → Option (List (List Nat × List Nat) × List Nat)
  | 0, l => some ([], l)
  | n + 1, l => do
    let (kv, r₁) ← decPair l
    let (kvs, r₂) ← decPairsN n r₁
    some (kv :: kvs, r₂)

/-- Reads a count-prefixed pair list. -/
def decPairList (l : List Nat) : Option (List (List Nat × List Nat) × List Nat) :=
  match l with
  | n :: rest => decPairsN n rest
  | [] => none

/-- Tagged option. -/
def encOptWith (enc : α → List Nat) : Option α → List Nat
  | none => [0]
  | some a => 1 :: enc a

/-- Reads a tagged option. -/
def decOptWith (dec : List Nat → Option (α × List Nat)) :
    List Nat → Option (Option α × List Nat)
  | 0 :: rest => some (none, rest)
  | 1 :: rest => do
    let (a, r₁) ← dec rest
    some (some a, r₁)
  | _ => none

/-- Data-type identifier tag. -/
def encDataType (d : DataTypeEnum) : List Nat :=
  match d with
  | .TIME_SERIES => [0]
  | .PARAMETERS => [1]
  | .IMAGES => [2]
  | .VIDEO => [3]
  | .Audio => [4]
  | .LOG => [5]
  | .MARKDOWN => [6]
  | .FILE => [7]
  | .CSV => [8]
  | .SAFETENSORS => [9]

/-- Reads a data-type identifier tag. -/
def decDataType : List Nat → Option (DataTypeEnum × List Nat)
  | 0 :: rest => some (.TIME_SERIES, rest)
  | 1 :: rest => some (.PARAMETERS, rest)
  | 2 :: rest => some (.IMAGES, rest)
  | 3 :: rest => some (.VIDEO, rest)
  | 4 :: rest => some (.Audio, rest)
  | 5 :: rest => some (.LOG, rest)
  | 6 :: rest => some (.MARKDOWN, rest)
  | 7 :: rest => some (.FILE, rest)
  | 8 :: rest => some (.CSV, rest)
  | 9 :: rest => some (.SAFETENSORS, rest)
  | _ => none

/-- Encoding tag — the spec's discriminator between payload shapes travels in
the payload itself; this field records the producer's declared encoding. -/
def encEncoding (e : Encoding) : List Nat :=
  match e with
  | .raw => [0]
  | .base64 => [1]
  | .binaryPack => [2]

/-- Reads an encoding tag. -/
def decEncoding : List Nat → Option (Encoding × List Nat)
  | 0 :: rest => some (.raw, rest)
  | 1 :: rest => some (.base64, rest)
  | 2 :: rest => some (.binaryPack, rest)
  | _ => none

/-- Compression tag. -/
def encCompression (c : Compression) : List Nat :=
  match c with
  | .gzip => [0]
  | .lz4 => [1]
  | .zstd => [2]

/-- Reads a compression tag. -/
def decCompression : List Nat → Option (Compression × List Nat)
  | 0 :: rest => some (.gzip, rest)
  | 1 :: rest => some (.lz4, rest)
  | 2 :: rest => some (.zstd, rest)
  | _ => none

/-- Discriminated payload: tag `0` for raw bytes, tag `1` for a structured
value, per the spec's self-describing requirement. -/
def encPayloadValue : PayloadValue → List Nat
  | .bytes bs => 0 :: encStr bs
  | .structured kvs => 1 :: encPairList kvs

/-- Reads a discriminated payload. -/
def decPayloadValue (l : List Nat) : Option (PayloadValue × List Nat) :=
  match l with
  | 0 :: rest => do
    let (bs, r₁) ← decStr rest
    some (.bytes bs, r₁)
  | 1 :: rest => do
    let (kvs, r₁) ← decPairList rest
    some (.structured kvs, r₁)
  | _ => none

/-- Modelled from the spec: the checksum digest is left abstract there ("SHA256
or MD5" in the repository's `DataPayload` docs); a simple 32-bit rolling
digest stands in for it. -/
def digest (bs : List Nat) : Nat :=
  bs.foldl (fun acc b => (acc * 131 + b + 17) % 4294967296) 0

/-- The words the checksum covers: the payload body. -/
def checksumTarget (e : Envelope) : List Nat :=
  match e.payload with
  | none => []
  | some (.bytes bs) => bs
  | some (.structured kvs) => (kvs.map encPair).flatten

/-- Declared-versus-actual payload length consistency: an uncompressed byte
payload must have `originalSize` words, a compressed one `compressedSize`. -/
def sizeConsistent (e : Envelope) : Bool :=
  match e.payload with
  | some (.bytes bs) =>
    match e.compression with
    | none => decide (e.originalSize = bs.length)
    | some _ => decide (e.compressedSize = bs.length)
  | _ => true

/-- Modelled from the spec: `encode(Envelope) -> bytes` (§4.2); field order is
the order of §3's Envelope record. -/
def encode (e : Envelope) : List Nat :=
  encInt e.timestampMillis ++ encStr e.producerId ++ encStr e.streamId ++
  encDataType e.dataType ++ encNat e.sequenceNumber ++ encPairList e.metadata ++
  encOptWith encPayloadValue e.payload ++ encEncoding e.encoding ++
  encOptWith encCompression e.compression ++ encNat e.originalSize ++
  encNat e.compressedSize ++ encOptWith encNat e.checksum

/-- Sequencing of two field decoders: run the first, feed its remainder to the
second, pair the results. -/
def decSeqWith {α β : Type} (dA : List Nat → Option (α × List Nat))
    (dB : List Nat → Option (β × List Nat)) (l : List Nat) :
    Option ((α × β) × List Nat) :=
  match dA l with
  | none => none
  | some (a, r) =>
    match dB r with
    | none => none
    | some (b, r₂) => some ((a, b), r₂)

/-- Tuple view of the Envelope fields, in wire order. -/
abbrev EnvTuple : Type :=
  Int × List Nat × List Nat × DataTypeEnum × Nat ×
    List (List Nat × List Nat) × Option PayloadValue × Encoding ×
    Option Compression × Nat × Nat × Option Nat

/-- Field-by-field decoder for the Envelope wire format. -/
def decEnvTuple : List Nat → Option (EnvTuple × List Nat) :=
  decSeqWith decInt (decSeqWith decStr (decSeqWith decStr (decSeqWith decDataType
    (decSeqWith decNat (decSeqWith decPairList
      (decSeqWith (decOptWith decPayloadValue) (decSeqWith decEncoding
        (decSeqWith (decOptWith decCompression) (decSeqWith decNat
          (decSeqWith decNat (decOptWith decNat)))))))))))

/-- Rebuilds the Envelope record from the decoded field tuple. -/
def fromTuple : EnvTuple → Envelope
  | (ts, pid, sid, dt, seq, meta, pl, enc, comp, osz, csz, chk) =>
    { timestampMillis := ts, producerId := pid, streamId := sid,
      dataType := dt, sequenceNumber := seq, metadata := meta,
      payload := pl, encoding := enc, compression := comp,
      originalSize := osz, compressedSize := csz, checksum := chk }

/-- Structural parse of an encoded Envelope, returning the unread remainder. -/
def decEnvelopeCore (l : List Nat) : Option (Envelope × List Nat) :=
  match decEnvTuple l with
  | none => none
  | some (t, r) => some (fromTuple t, r)

/-- Modelled from the spec: `decode(bytes) -> Envelope | DecodeError` (§4.2) —
`MalformedEnvelope` on structural violations (parse failure, trailing junk,
inconsistent declared vs. actual payload length), `ChecksumMismatch` when a
checksum is present and does not match. -/
def decode (l : List Nat) : Except DecodeError Envelope :=
  match decEnvelopeCore l with
  | none => Except.error DecodeError.malformedEnvelope
  | some (e, rest) =>
    if rest = [] then
      if sizeConsistent e then
        match e.checksum with
        | some c =>
          if c = digest (checksumTarget e) then Except.ok e
          else Except.error DecodeError.checksumMismatch
        | none => Except.ok e
      else Except.error DecodeError.malformedEnvelope
    else Except.error DecodeError.malformedEnvelope

/-- Modelled from the spec: well-formedness of an Envelope — declared sizes
match the payload and a present checksum is correct — the "valid `e`" of the
round-trip law. -/
def wellFormedB (e : Envelope) : Bool :=
  sizeConsistent e &&
    match e.checksum with
    | none => true
    | some c => decide (c = digest (checksumTarget e))

/-- A concrete well-formed envelope used to exercise the codec. -/
def sampleEnvelope : Envelope :=
  { timestampMillis := -5, producerId := codes "robot1",
    streamId := codes "lidar", dataType := DataTypeEnum.VIDEO,
    sequenceNumber := 7, metadata := [(codes "k", codes "v")],
    payload := some (PayloadValue.bytes [10, 20, 30]),
    encoding := Encoding.raw, compression := none, originalSize := 3,
    compressedSize := 3, checksum := some (digest [10, 20, 30]) }

/-- The exact rational division in `validatePayloadSize` agrees with the
integer comparison `originalSize ≤ maxSizeMB * 1048576`, which the kernel can
evaluate. -/
theorem validatePayloadSize_eq (payload : DataPayload) :
    validatePayloadSize payload =
      match (DATA_TYPE_DEFINITIONS payload.dataType).maxSizeMB with
      | none => true
      | some m =>
        if m = 0 then true
        else decide (payload.originalSize.getD 0 ≤ m * 1048576) := by
  unfold validatePayloadSize
  cases hm : (DATA_TYPE_DEFINITIONS payload.dataType).maxSizeMB with
  | none => rfl
  | some m =>
    by_cases h0 : m = 0
    · simp [h0]
    · simp only [h0, if_false]
      congr 1
      apply propext
      rw [div_le_iff₀ (by norm_num : (0 : ℚ) < 1024 * 1024)]
      constructor
      · intro h
        have h' : ((payload.originalSize.getD 0 : Nat) : ℚ) ≤ ((m * 1048576 : Nat) : ℚ) := by
          push_cast
          linarith
        exact_mod_cast h'
      · intro h
        have h' : ((payload.originalSize.getD 0 : Nat) : ℚ) ≤ ((m * 1048576 : Nat) : ℚ) := by
          exact_mod_cast h
        push_cast at h'
        linarith


/-- Every enum member occurs in the `Object.entries` iteration order. -/
theorem mem_entryOrder (d : DataTypeEnum) : d ∈ entryOrder := by
  cases d <;> decide

/-- A non-generic enum member occurs in the suffix-search order. -/
theorem mem_nonFileTypes {d : DataTypeEnum} (hd : d ≠ DataTypeEnum.FILE) :
    d ∈ nonFileTypes := by
  cases d <;> first | exact absurd rfl hd | decide

/-- When no non-generic entry's suffix set matches, the search loop falls
through to `FILE`. -/
theorem searchType_eq_FILE_of_no_hit {f : List Nat} {l : List DataTypeEnum}
    (h : ∀ d ∈ l, d ≠ DataTypeEnum.FILE → suffixSearchHit f d = false) :
    searchType f l = DataTypeEnum.FILE := by
  induction l with
  | nil => rfl
  | cons d rest ih =>
    by_cases hd : d = DataTypeEnum.FILE
    · simp only [searchType, hd, if_pos rfl]
      exact ih fun x hx => h x (List.mem_cons_of_mem _ hx)
    · have hh := h d (List.mem_cons_self d rest) hd
      rw [searchType, if_neg hd, hh]
      simp only [Bool.false_eq_true, if_false]
      exact ih fun x hx => h x (List.mem_cons_of_mem _ hx)

/-- When the search loop falls through to `FILE`, no non-generic entry in the
walked list matched. -/
theorem no_hit_of_searchType_eq_FILE {f : List Nat} {l : List DataTypeEnum}
    (h : searchType f l = DataTypeEnum.FILE) :
    ∀ d ∈ l, d ≠ DataTypeEnum.FILE → suffixSearchHit f d = false := by
  induction l with
  | nil => intro d hd; exact absurd hd (List.not_mem_nil d)
  | cons d₀ rest ih =>
    intro d hd hdne
    by_cases h₀ : d₀ = DataTypeEnum.FILE
    · simp only [searchType, h₀, if_pos rfl] at h
      rcases List.mem_cons.mp hd with h₁ | h₁
      · exact absurd (h₁.trans h₀) hdne
      · exact ih h d h₁ hdne
    · simp only [searchType, if_neg h₀] at h
      by_cases hh : suffixSearchHit f d₀ = true
      · rw [if_pos hh] at h; exact absurd h h₀
      · rw [if_neg hh] at h
        rcases List.mem_cons.mp hd with h₁ | h₁
        · subst h₁; exact Bool.eq_false_iff.mpr hh
        · exact ih h d h₁ hdne

/-- When some non-generic entry matches, the search loop's result is itself a
non-generic entry that matches. -/
theorem searchType_spec {f : List Nat} {l : List DataTypeEnum}
    (h : ∃ d ∈ l, d ≠ DataTypeEnum.FILE ∧ suffixSearchHit f d = true) :
    searchType f l ≠ DataTypeEnum.FILE ∧
      suffixSearchHit f (searchType f l) = true := by
  induction l with
  | nil => obtain ⟨d, hd, -⟩ := h; exact absurd hd (List.not_mem_nil d)
  | cons d₀ rest ih =>
    obtain ⟨d, hd, hdne, hdhit⟩ := h
    by_cases h₀ : d₀ = DataTypeEnum.FILE
    · simp only [searchType, h₀, if_pos rfl]
      rcases List.mem_cons.mp hd with h₁ | h₁
      · exact absurd (h₁.trans h₀) hdne
      · exact ih ⟨d, h₁, hdne, hdhit⟩
    · simp only [searchType, if_neg h₀]
      by_cases hh : suffixSearchHit f d₀ = true
      · rw [if_pos hh]; exact ⟨h₀, hh⟩
      · rw [if_neg hh]
        rcases List.mem_cons.mp hd with h₁ | h₁
        · subst h₁; exact absurd hdhit hh
        · exact ih ⟨d, h₁, hdne, hdhit⟩

/-- C1.  Classification totality: `getDataTypeForFile` is a total function
into `DataTypeEnum`, and it returns the generic fallback `FILE` exactly when
no specific (non-`FILE`) type's suffix set matches the filename. -/
theorem getDataTypeForFile_totality (f : List Nat) :
    getDataTypeForFile f = DataTypeEnum.FILE ↔
      ∀ d, d ≠ DataTypeEnum.FILE → suffixSearchHit f d = false := by
  constructor
  · intro h d hd
    exact no_hit_of_searchType_eq_FILE h d (mem_entryOrder d) hd
  · intro h
    exact searchType_eq_FILE_of_no_hit fun d _ hd => h d hd

/-- C1 witness: a filename matching no specific suffix classifies as `FILE`. -/
theorem getDataTypeForFile_totality_w :
    getDataTypeForFile (codes "report.xyz") = DataTypeEnum.FILE :=
  (getDataTypeForFile_totality (codes "report.xyz")).mpr (by decide)

/-- Distinct registered specific suffixes are never suffixes of one another
(every one is a dot followed by dot-free characters), so two specs can only
both match a filename through the very same suffix string. -/
theorem specific_suffix_unique :
    ∀ s ∈ allSpecificSuffixes, ∀ t ∈ allSpecificSuffixes,
      List.isSuffixOf s t = true → s = t := by decide

/-- Suffixes of a non-generic type all belong to `allSpecificSuffixes`. -/
theorem mem_allSpecificSuffixes {d : DataTypeEnum} (hd : d ≠ DataTypeEnum.FILE)
    {s : List Nat} (hs : s ∈ (DATA_TYPE_DEFINITIONS d).fileSuffixes) :
    s ∈ allSpecificSuffixes :=
  List.mem_flatMap.mpr ⟨d, mem_nonFileTypes hd, hs⟩

/-- C2.  Suffix tie-break: whenever some specific (non-`FILE`) spec's suffix
set matches a filename, the classification result is itself a specific spec —
`FILE` is never produced by, nor consulted in, the suffix search — and the
result's matching suffix is at least as long as any suffix through which any
specific spec matches.  (In this registry two specs can only both match via
the identical suffix string, so all matching suffixes are equally long.) -/
theorem suffix_tiebreak (f : List Nat) (d : DataTypeEnum)
    (hd : d ≠ DataTypeEnum.FILE) (hhit : suffixSearchHit f d = true) :
    getDataTypeForFile f ≠ DataTypeEnum.FILE ∧
      ∃ t ∈ (DATA_TYPE_DEFINITIONS (getDataTypeForFile f)).fileSuffixes,
        List.isSuffixOf t (lower f) = true ∧
        ∀ d', d' ≠ DataTypeEnum.FILE →
          ∀ s ∈ (DATA_TYPE_DEFINITIONS d').fileSuffixes,
            List.isSuffixOf s (lower f) = true → s.length ≤ t.length := by
  unfold getDataTypeForFile
  obtain ⟨hne, hrhit⟩ :=
    searchType_spec (l := entryOrder) ⟨d, mem_entryOrder d, hd, hhit⟩
  unfold suffixSearchHit at hrhit
  obtain ⟨t, ht, htsfx⟩ := List.any_eq_true.mp hrhit
  refine ⟨hne, t, ht, htsfx, ?_⟩
  intro d' hd' s hs hssfx
  have hsA := mem_allSpecificSuffixes hd' hs
  have htA := mem_allSpecificSuffixes hne ht
  have h1 := List.isSuffixOf_iff_suffix.mp hssfx
  have h2 := List.isSuffixOf_iff_suffix.mp htsfx
  rcases List.suffix_or_suffix_of_suffix h1 h2 with hc | hc
  · have hst := specific_suffix_unique s hsA t htA (List.isSuffixOf_iff_suffix.mpr hc)
    simp [hst]
  · have hts := specific_suffix_unique t htA s hsA (List.isSuffixOf_iff_suffix.mpr hc)
    simp [hts]

/-- C2 witness: `a.json` matches both `TIME_SERIES` and `PARAMETERS` through
the suffix `.json`; the classification result is specific and its matching
suffix is maximal. -/
theorem suffix_tiebreak_w :
    suffixSearchHit (codes "a.json") DataTypeEnum.PARAMETERS = true ∧
      (getDataTypeForFile (codes "a.json") ≠ DataTypeEnum.FILE ∧
        ∃ t ∈ (DATA_TYPE_DEFINITIONS (getDataTypeForFile (codes "a.json"))).fileSuffixes,
          List.isSuffixOf t (lower (codes "a.json")) = true ∧
          ∀ d', d' ≠ DataTypeEnum.FILE →
            ∀ s ∈ (DATA_TYPE_DEFINITIONS d').fileSuffixes,
              List.isSuffixOf s (lower (codes "a.json")) = true →
                s.length ≤ t.length) :=
  ⟨by decide,
    suffix_tiebreak (codes "a.json") DataTypeEnum.PARAMETERS (by decide) (by decide)⟩

/-- C3 counterexample: `data.bin` with MIME type `text/csv` carries no explicit
identifier and matches no spec's suffix set, and its MIME type is a candidate
of the `CSV` spec, so the spec's `classify` contract (modelled by
`classifySpec`) resolves it to `CSV`; but the code's classification function
`getDataTypeForFile` — which takes only the filename and has no MIME stage —
returns the generic fallback `FILE`. -/
theorem mime_stage_missing_cex :
    classifySpec none (codes "data.bin") (some (codes "text/csv")) =
        DataTypeEnum.CSV ∧
      codes "text/csv" ∈ (DATA_TYPE_DEFINITIONS DataTypeEnum.CSV).mimeTypes ∧
      (∀ d, d ≠ DataTypeEnum.FILE →
        suffixSearchHit (codes "data.bin") d = false) ∧
      getDataTypeForFile (codes "data.bin") = DataTypeEnum.FILE :=
  ⟨by decide, by decide, by decide, by decide⟩

/-- C3 amended: the code's classification consults only the filename's suffix;
there is no MIME resolution stage, so whenever no specific spec's suffix set
matches, `getDataTypeForFile` returns the generic fallback `FILE` even when
the accompanying MIME type is a candidate of some spec. -/
theorem no_mime_stage (f m : List Nat) (d : DataTypeEnum)
    (hno : ∀ d', d' ≠ DataTypeEnum.FILE → suffixSearchHit f d' = false)
    (_hm : m ∈ (DATA_TYPE_DEFINITIONS d).mimeTypes) :
    getDataTypeForFile f = DataTypeEnum.FILE :=
  searchType_eq_FILE_of_no_hit fun d' _ hd' => hno d' hd'

/-- C3 witness for the amended statement. -/
theorem no_mime_stage_w :
    codes "text/csv" ∈ (DATA_TYPE_DEFINITIONS DataTypeEnum.CSV).mimeTypes ∧
      getDataTypeForFile (codes "data.bin") = DataTypeEnum.FILE :=
  ⟨by decide,
    no_mime_stage (codes "data.bin") (codes "text/csv") DataTypeEnum.CSV
      (by decide) (by decide)⟩

/-- C4.  Size validation: `validatePayloadSize` returns `false` exactly when
the payload's `originalSize` (a missing size counting as `0`) exceeds the
size ceiling `maxSizeMB * 1024 * 1024` bytes of its data type's definition;
in particular a payload whose size equals the ceiling exactly is valid, and a
definition without a ceiling would validate everything. -/
theorem validatePayloadSize_false_iff (p : DataPayload) :
    validatePayloadSize p = false ↔
      ∃ m, (DATA_TYPE_DEFINITIONS p.dataType).maxSizeMB = some m ∧
        m * 1048576 < p.originalSize.getD 0 := by
  rw [validatePayloadSize_eq]
  have hm0 : ∀ m, (DATA_TYPE_DEFINITIONS p.dataType).maxSizeMB = some m → m ≠ 0 := by
    cases p.dataType <;> intro m hm <;>
      simp only [DATA_TYPE_DEFINITIONS, Option.some.injEq] at hm <;> omega
  cases hm : (DATA_TYPE_DEFINITIONS p.dataType).maxSizeMB with
  | none => simp
  | some m =>
    have := hm0 m hm
    simp only [this, if_false, decide_eq_false_iff_not, Nat.not_le,
      Option.some.injEq]
    constructor
    · intro h; exact ⟨m, rfl, h⟩
    · rintro ⟨m', hm', h⟩; omega

/-- C8.  Missing-size edge case: a payload whose `originalSize` is absent
validates, whatever its data type's ceiling, because the missing size is
treated as `0` bytes. -/
theorem validatePayloadSize_none (p : DataPayload)
    (h : p.originalSize = none) : validatePayloadSize p = true := by
  rw [validatePayloadSize_eq]
  cases hm : (DATA_TYPE_DEFINITIONS p.dataType).maxSizeMB with
  | none => rfl
  | some m =>
    by_cases h0 : m = 0
    · simp [h0]
    · simp [h0, h]

/-- C8 witness: a sizeless VIDEO payload validates. -/
theorem validatePayloadSize_none_w :
    validatePayloadSize
      { timestamp := 0, robotId := [], sessionId := [],
        dataType := DataTypeEnum.VIDEO, sequenceNumber := 0,
        originalSize := none, compressedSize := none } = true :=
  validatePayloadSize_none _ rfl

/-- C6.  Registry well-formedness: the table stores, under every identifier,
exactly one definition, and that definition's `type` field is the identifier
itself (hence identifiers determine their definitions uniquely). -/
theorem registry_wellformed :
    (∀ d : DataTypeEnum, (DATA_TYPE_DEFINITIONS d).type = d) ∧
      ∀ d₁ d₂ : DataTypeEnum,
        (DATA_TYPE_DEFINITIONS d₁).type = (DATA_TYPE_DEFINITIONS d₂).type →
          d₁ = d₂ := by
  have h : ∀ d : DataTypeEnum, (DATA_TYPE_DEFINITIONS d).type = d := by
    intro d; cases d <;> rfl
  refine ⟨h, fun d₁ d₂ he => ?_⟩
  rw [h d₁, h d₂] at he
  exact he

/-- C7.  Determinism of the registry operations: each of the five utility
functions returns equal results on equal inputs.  (Immutability of
`DATA_TYPE_DEFINITIONS` holds by construction of the embedding: the source
contains no assignment to the table, so each operation is embedded as a pure
function of its arguments and the constant table.) -/
theorem registry_ops_pure :
    (∀ f g : List Nat, f = g → getDataTypeForFile f = getDataTypeForFile g) ∧
      (∀ f g : List Nat, f = g → getMimeTypeForFile f = getMimeTypeForFile g) ∧
      (∀ d e : DataTypeEnum, d = e → getPrimaryMimeType d = getPrimaryMimeType e) ∧
      (∀ p q : DataPayload, p = q → validatePayloadSize p = validatePayloadSize q) ∧
      ∀ f g : List Nat, ∀ d e : DataTypeEnum, f = g → d = e →
        matchesSuffix f d = matchesSuffix g e := by
  refine ⟨?_, ?_, ?_, ?_, ?_⟩ <;> intros <;> subst_vars <;> rfl

/-- C7 witness: determinism at a concrete input. -/
theorem registry_ops_pure_w :
    getDataTypeForFile (codes "a.json") = getDataTypeForFile (codes "a.json") :=
  registry_ops_pure.1 (codes "a.json") (codes "a.json") rfl

/-- C10.  Every definition's MIME candidate list is non-empty (with a
non-empty head), so `getPrimaryMimeType` and `getMimeTypeForFile` always
return the classified definition's first MIME candidate and the
`'application/octet-stream'` fallback branch of both functions is never
taken. -/
theorem primary_mime_no_fallback :
    (∀ d : DataTypeEnum,
      ∃ m rest, (DATA_TYPE_DEFINITIONS d).mimeTypes = m :: rest ∧ m ≠ [] ∧
        getPrimaryMimeType d = m) ∧
      ∀ f : List Nat,
        ∃ m rest,
          (DATA_TYPE_DEFINITIONS (getDataTypeForFile f)).mimeTypes = m :: rest ∧
            m ≠ [] ∧ getMimeTypeForFile f = m := by
  have h : ∀ d : DataTypeEnum,
      ∃ m rest, (DATA_TYPE_DEFINITIONS d).mimeTypes = m :: rest ∧ m ≠ [] ∧
        getPrimaryMimeType d = m := by
    intro d
    cases d <;> exact ⟨_, _, rfl, by decide, rfl⟩
  exact ⟨h, fun f => h (getDataTypeForFile f)⟩

/-- Lowercasing a codepoint is idempotent: a lowered character is never in the
uppercase ASCII range. -/
theorem lowerCode_idem (n : Nat) : lowerCode (lowerCode n) = lowerCode n := by
  by_cases h : 65 ≤ n ∧ n ≤ 90
  · have h1 : lowerCode n = n + 32 := if_pos h
    rw [h1]
    exact if_neg (by omega : ¬(65 ≤ n + 32 ∧ n + 32 ≤ 90))
  · have h1 : lowerCode n = n := if_neg h
    rw [h1]
    exact h1

/-- Lowercasing a string is idempotent. -/
theorem lower_idem (s : List Nat) : lower (lower s) = lower s := by
  unfold lower
  rw [List.map_map]
  exact List.map_congr_left fun a _ => lowerCode_idem a

/-- The suffix test only sees the lowered filename. -/
theorem suffixSearchHit_lower (f : List Nat) (d : DataTypeEnum) :
    suffixSearchHit (lower f) d = suffixSearchHit f d := by
  unfold suffixSearchHit
  rw [lower_idem]

/-- `matchesSuffix` only sees the lowered filename. -/
theorem matchesSuffix_lower (f : List Nat) (d : DataTypeEnum) :
    matchesSuffix (lower f) d = matchesSuffix f d := by
  unfold matchesSuffix
  rw [lower_idem]

/-- The search loop only sees the lowered filename. -/
theorem searchType_lower (f : List Nat) (l : List DataTypeEnum) :
    searchType (lower f) l = searchType f l := by
  induction l with
  | nil => rfl
  | cons d rest ih => simp only [searchType, suffixSearchHit_lower, ih]

/-- C9.  Case-insensitivity: classification and suffix matching agree on a
filename and on its lowercased copy. -/
theorem classification_case_insensitive (f : List Nat) :
    getDataTypeForFile f = getDataTypeForFile (lower f) ∧
      ∀ d, matchesSuffix f d = matchesSuffix (lower f) d :=
  ⟨(searchType_lower f entryOrder).symm, fun d => (matchesSuffix_lower f d).symm⟩

/-- One word decodes to itself. -/
theorem decNat_enc (n : Nat) (r : List Nat) : decNat (encNat n ++ r) = some (n, r) := rfl

/-- Sign-tagged integers round-trip. -/
theorem decInt_enc (i : Int) (r : List Nat) : decInt (encInt i ++ r) = some (i, r) := by
  by_cases h : 0 ≤ i
  · rw [encInt, if_pos h]
    show some ((i.toNat : Int), r) = some (i, r)
    rw [Int.toNat_of_nonneg h]
  · rw [encInt, if_neg h]
    show some (-((-i).toNat : Int), r) = some (i, r)
    rw [Int.toNat_of_nonneg (by omega : 0 ≤ -i), neg_neg]

/-- Length-prefixed sequences round-trip. -/
theorem decStr_enc (s r : List Nat) : decStr (encStr s ++ r) = some (s, r) := by
  have hle : s.length ≤ (s ++ r).length := by
    rw [List.length_append]; exact Nat.le_add_right _ _
  show decStr (s.length :: (s ++ r)) = some (s, r)
  simp only [decStr, if_pos hle, List.take_left, List.drop_left]

/-- Key/value pairs round-trip. -/
theorem decPair_enc (kv : List Nat × List Nat) (r : List Nat) :
    decPair (encPair kv ++ r) = some (kv, r) := by
  obtain ⟨k, v⟩ := kv
  rw [encPair, List.append_assoc]
  simp [decPair, decStr_enc]

/-- Fixed-count pair sequences round-trip. -/
theorem decPairsN_enc (kvs : List (List Nat × List Nat)) (r : List Nat) :
    decPairsN kvs.length ((kvs.map encPair).flatten ++ r) = some (kvs, r) := by
  induction kvs generalizing r with
  | nil => rfl
  | cons kv rest ih =>
    simp only [List.map_cons, List.flatten_cons, List.length_cons,
      List.append_assoc]
    simp [decPairsN, decPair_enc, ih]

/-- Count-prefixed pair lists round-trip. -/
theorem decPairList_enc (kvs : List (List Nat × List Nat)) (r : List Nat) :
    decPairList (encPairList kvs ++ r) = some (kvs, r) :=
  decPairsN_enc kvs r

/-- Tagged options round-trip whenever the component codec does. -/
theorem decOptWith_enc {α : Type} {enc : α → List Nat}
    {dec : List Nat → Option (α × List Nat)}
    (hrt : ∀ a r, dec (enc a ++ r) = some (a, r)) (o : Option α) (r : List Nat) :
    decOptWith dec (encOptWith enc o ++ r) = some (o, r) := by
  cases o with
  | none => rfl
  | some a =>
    show decOptWith dec (1 :: (enc a ++ r)) = some (some a, r)
    simp [decOptWith, hrt]

/-- Data-type tags round-trip. -/
theorem decDataType_enc (d : DataTypeEnum) (r : List Nat) :
    decDataType (encDataType d ++ r) = some (d, r) := by
  cases d <;> rfl

/-- Encoding tags round-trip. -/
theorem decEncoding_enc (e : Encoding) (r : List Nat) :
    decEncoding (encEncoding e ++ r) = some (e, r) := by
  cases e <;> rfl

/-- Compression tags round-trip. -/
theorem decCompression_enc (c : Compression) (r : List Nat) :
    decCompression (encCompression c ++ r) = some (c, r) := by
  cases c <;> rfl

/-- Discriminated payloads round-trip. -/
theorem decPayloadValue_enc (p : PayloadValue) (r : List Nat) :
    decPayloadValue (encPayloadValue p ++ r) = some (p, r) := by
  cases p with
  | bytes bs =>
    show decPayloadValue (0 :: (encStr bs ++ r)) = some (.bytes bs, r)
    simp [decPayloadValue, decStr_enc]
  | structured kvs =>
    show decPayloadValue (1 :: (encPairList kvs ++ r)) = some (.structured kvs, r)
    simp [decPayloadValue, decPairList_enc]

/-- Sequenced decoders round-trip whenever both components do. -/
theorem decSeqWith_enc {α β : Type} {dA : List Nat → Option (α × List Nat)}
    {dB : List Nat → Option (β × List Nat)} {eA : α → List Nat}
    {eB : β → List Nat} (hA : ∀ a r, dA (eA a ++ r) = some (a, r))
    (hB : ∀ b r, dB (eB b ++ r) = some (b, r)) (p : α × β) (r : List Nat) :
    decSeqWith dA dB ((eA p.1 ++ eB p.2) ++ r) = some (p, r) := by
  rw [List.append_assoc]
  simp only [decSeqWith, hA, hB]

/-- The structural parse inverts `encode` and leaves the remainder intact. -/
theorem decEnvelopeCore_enc (e : Envelope) (r : List Nat) :
    decEnvelopeCore (encode e ++ r) = some (e, r) := by
  obtain ⟨ts, pid, sid, dt, seq, meta, pl, enc, comp, osz, csz, chk⟩ := e
  have h12 := decOptWith_enc decNat_enc
  have h11 := decSeqWith_enc decNat_enc h12
  have h10 := decSeqWith_enc decNat_enc h11
  have h9 := decSeqWith_enc (decOptWith_enc decCompression_enc) h10
  have h8 := decSeqWith_enc decEncoding_enc h9
  have h7 := decSeqWith_enc (decOptWith_enc decPayloadValue_enc) h8
  have h6 := decSeqWith_enc decPairList_enc h7
  have h5 := decSeqWith_enc decNat_enc h6
  have h4 := decSeqWith_enc decDataType_enc h5
  have h3 := decSeqWith_enc decStr_enc h4
  have h2 := decSeqWith_enc decStr_enc h3
  have h1 := decSeqWith_enc decInt_enc h2
  have h1x := h1 (ts, pid, sid, dt, seq, meta, pl, enc, comp, osz, csz, chk) r
  simp only [List.append_assoc] at h1x
  unfold decEnvelopeCore decEnvTuple encode
  simp only [List.append_assoc]
  rw [h1x]
  rfl

/-- C5.  Codec round-trip: decoding the encoding of any well-formed envelope
yields the envelope itself, `decode (encode e) = ok e`. -/
theorem decode_encode (e : Envelope) (h : wellFormedB e = true) :
    decode (encode e) = Except.ok e := by
  have hcore : decEnvelopeCore (encode e) = some (e, []) := by
    have hx := decEnvelopeCore_enc e []
    rwa [List.append_nil] at hx
  unfold wellFormedB at h
  rw [Bool.and_eq_true] at h
  obtain ⟨hsz, hchk⟩ := h
  unfold decode
  rw [hcore]
  simp only [hsz, if_true]
  cases hc : e.checksum with
  | none => simp [hc]
  | some c =>
    rw [hc] at hchk
    simp only [decide_eq_true_eq] at hchk
    simp [hc, hchk]

/-- C5 witness: a concrete well-formed envelope round-trips. -/
theorem decode_encode_w :
    wellFormedB sampleEnvelope = true ∧
      decode (encode sampleEnvelope) = Except.ok sampleEnvelope :=
  ⟨by decide, decode_encode sampleEnvelope (by decide)⟩

end DemoStream
